import Mathlib

/-!
Verification of the request-resolution, caching and translation layer of
the APOD micro-service (source: application.py).

The embedding is shallow and split into three parts, each faithful to the
source at its own level of abstraction:

Part A (single-date resolution, function get_json_for_date in the source,
there named with a leading underscore): calendar dates are embedded as
year/month/day triples, because the cache keys of RESULTS_DICT are built
from the date components, and the validation error message formats them.
Python date objects compare lexicographically on (year, month, day).

Part B (range and random-sample resolution): calendar dates are embedded
by their proleptic-Gregorian ordinal (a natural number), exactly the
representation the source itself switches to via toordinal/fromordinal;
ordinal order coincides with date order. A record date field, an ISO
string in the source, is embedded as the ordinal of the date it denotes.

Part C (translation gateway, function translate_to_zh in the source):
the two providers are parameters returning either a value or one of the
two exception classes the source catches.

External collaborators (parse_apod upstream fetching, datetime.strptime,
the shuffle of the random module, the HTTP providers) are modelled as
function parameters, since their code is not part of this repository.
-/

/-- Calendar date as a year/month/day triple, the embedding of a Python
datetime.date value. -/
structure CalendarDate where
  year : Nat
  month : Nat
  day : Nat
deriving DecidableEq, Repr

/-- Strict order on dates; Python date objects compare lexicographically
on (year, month, day). -/
def dateLt (a b : CalendarDate) : Bool :=
  a.year < b.year ||
    (a.year == b.year &&
      (a.month < b.month || (a.month == b.month && a.day < b.day)))

/-- Non-strict order, the complement of the (total) strict order, as for
Python date comparison. -/
def dateLe (a b : CalendarDate) : Bool := !(dateLt b a)

/-- EPOCH_DATE: first APOD image date, datetime(1995, 6, 16) in
validate_date (source line 103). -/
def epochDate : CalendarDate := ⟨1995, 6, 16⟩

/-- Month abbreviations of strftime directive b in the C locale. -/
def monthAbbrev : Nat → String
  | 1 => "Jan" | 2 => "Feb" | 3 => "Mar" | 4 => "Apr"
  | 5 => "May" | 6 => "Jun" | 7 => "Jul" | 8 => "Aug"
  | 9 => "Sep" | 10 => "Oct" | 11 => "Nov" | 12 => "Dec"
  | _ => ""

/-- Zero-padding to two digits, strftime directive d. -/
def pad2 (n : Nat) : String := if n < 10 then "0" ++ toString n else toString n

/-- Zero-padding to four digits, strftime directive Y. -/
def pad4 (n : Nat) : String :=
  if n < 10 then "000" ++ toString n
  else if n < 100 then "00" ++ toString n
  else if n < 1000 then "0" ++ toString n
  else toString n

/-- Formatting of strftime("%b %d, %Y") used for both bounds of the
validation error message (source lines 107-108). -/
def strftimeBdY (d : CalendarDate) : String :=
  monthAbbrev d.month ++ " " ++ pad2 d.day ++ ", " ++ pad4 d.year

/-- Error message raised by validate_date (source line 110), with both
formatted bounds substituted. -/
def outOfRangeMessage (today : CalendarDate) : String :=
  "Date must be between " ++ strftimeBdY epochDate ++ " and "
    ++ strftimeBdY today ++ "."

/-- Embedding of validate_date (source lines 100-110): raises ValueError
when the date is after today or before the epoch; today is the embedding
of datetime.today().date(), passed as a parameter. -/
def validateDate (today dt : CalendarDate) : Except String Unit :=
  if dateLt today dt || dateLt dt epochDate then
    Except.error (outOfRangeMessage today)
  else
    Except.ok ()

/-- C3. Date validation: for every date d with EPOCH_DATE (1995-06-16)
<= d <= today, validate succeeds; for every d < EPOCH_DATE or d > today,
validate fails, and the error message embeds both the epoch and today
formatted bounds (the epoch bound formatting to "Jun 16, 1995"). -/
theorem c3_validate_date (today d : CalendarDate) :
    (dateLe epochDate d = true → dateLe d today = true →
      validateDate today d = Except.ok ()) ∧
    (dateLt d epochDate = true ∨ dateLt today d = true →
      validateDate today d =
        Except.error ("Date must be between " ++ strftimeBdY epochDate
          ++ " and " ++ strftimeBdY today ++ ".")
      ∧ strftimeBdY epochDate = "Jun 16, 1995") := by
  constructor
  · intro hlo hhi
    simp only [dateLe, Bool.not_eq_true'] at hlo hhi
    simp [validateDate, hlo, hhi]
  · intro h
    refine ⟨?_, by decide⟩
    rcases h with h | h <;>
      simp [validateDate, outOfRangeMessage, h]

/-- Witness for C3 at concrete dates: 2000-01-05 is in range for
today = 2020-02-03 and validates, while 1990-01-01 is below the epoch
and produces the bounds-bearing message. -/
theorem c3_validate_date_witness :
    (dateLe epochDate ⟨2000, 1, 5⟩ = true ∧
     dateLe ⟨2000, 1, 5⟩ ⟨2020, 2, 3⟩ = true ∧
     validateDate ⟨2020, 2, 3⟩ ⟨2000, 1, 5⟩ = Except.ok ()) ∧
    (dateLt ⟨1990, 1, 1⟩ epochDate = true ∧
     validateDate ⟨2020, 2, 3⟩ ⟨1990, 1, 1⟩ =
       Except.error ("Date must be between " ++ strftimeBdY epochDate
         ++ " and " ++ strftimeBdY ⟨2020, 2, 3⟩ ++ ".")) := by
  refine ⟨⟨by decide, by decide, ?_⟩, ⟨by decide, ?_⟩⟩
  · exact (c3_validate_date ⟨2020, 2, 3⟩ ⟨2000, 1, 5⟩).1 (by decide) (by decide)
  · exact ((c3_validate_date ⟨2020, 2, 3⟩ ⟨1990, 1, 1⟩).2 (Or.inl (by decide))).1

/-- SERVICE_VERSION constant of the source (line 44). -/
def SERVICE_VERSION : String := "v1"

/-- Normalized upstream record (an APOD dictionary). The date field, an
ISO string in the source, is embedded as the parsed calendar date; the
service version field models the "service_version" dictionary entry,
absent (empty) until the resolver sets it. -/
structure ApodRecord where
  date : CalendarDate
  title : String
  explanation : String
  service_version : String
deriving DecidableEq, Repr

/-- Setting data["service_version"] = SERVICE_VERSION (source line 220). -/
def withVersion (r : ApodRecord) : ApodRecord :=
  { r with service_version := SERVICE_VERSION }

/-- The dt argument handed to the upstream fetcher apod_handler: the
default-to-today path passes the raw input through unchanged (None or
the empty string), the explicit path passes the parsed date object. -/
inductive DtArg where
  | raw (s : Option String)
  | parsed (d : CalendarDate)
deriving DecidableEq, Repr

/-- Possible outcomes of one apod_handler call (source lines 131-159):
parse_apod may return no data (falsy), a record dictionary, or, on an
internal error, the handler returns an abort Response object (which is
not a dict). -/
inductive FetchResult where
  | absent
  | fault (code : Nat) (msg : String)
  | record (r : ApodRecord)
deriving DecidableEq, Repr

/-- Type of the modelled upstream fetcher: arguments are dt,
use_concept_tags, use_default_today_date, thumbs, as in apod_handler. -/
abbrev Fetcher := DtArg → Bool → Bool → Bool → FetchResult

/-- RESULTS_DICT, the volatile result cache (source line 56): a mapping
from string keys to records, embedded as an association list in which
the most recent binding of a key shadows older ones. -/
abbrev Cache := List (String × ApodRecord)

/-- Dictionary lookup: key membership test plus read. -/
def cacheGet (c : Cache) (k : String) : Option ApodRecord :=
  (c.find? (fun p => p.1 == k)).map (fun p => p.2)

/-- Dictionary assignment RESULTS_DICT[key] = data: overwrites any
previous binding of the key. -/
def cachePut (c : Cache) (k : String) (r : ApodRecord) : Cache :=
  (k, r) :: c.filter (fun p => p.1 != k)

/-- Python str() of a boolean, as concatenated into the cache key. -/
def pyStrBool (b : Bool) : String := if b then "True" else "False"

/-- Cache-key construction of the source (lines 179-188, 194-203 and
224-233): year, month and day separated by "y", "m", "d", then the two
flags. -/
def makeKey (d : CalendarDate) (ct th : Bool) : String :=
  toString d.year ++ "y" ++ toString d.month ++ "m" ++ toString d.day
    ++ "d" ++ pyStrBool ct ++ pyStrBool th

/-- Python f-string interpolation of the original input for the 404
message (source line 214): None prints as "None". -/
def pyStrOpt : Option String → String
  | none => "None"
  | some s => s

/-- Outcome of one get_json_for_date call: a returned record, the 404
no-data abort, the ValueError of strptime on an unparsable date string,
the ValueError of validate_date, or the pass-through of a non-dict
fetch result (source lines 217-218). -/
inductive DateOutcome where
  | ok (rec : ApodRecord)
  | noData (msg : String)
  | malformed
  | outOfRange (msg : String)
  | passthrough (code : Nat) (msg : String)
deriving DecidableEq, Repr

/-- Full observable result of one get_json_for_date call: outcome, the
resulting RESULTS_DICT, the upstream fetch calls performed (dt argument
and use_default_today_date flag of each), and the cache write performed
(key and record), if any. -/
structure DateCallResult where
  outcome : DateOutcome
  cache : Cache
  fetchCalls : List (DtArg × Bool)
  written : Option (String × ApodRecord)
deriving DecidableEq, Repr

/-- Tail of get_json_for_date from line 220 on, for record data: set the
service version, recompute the key from the record's own date field
(lines 223-233) and write the cache (line 234). -/
def finishRecord (c : Cache) (ct th : Bool) (data : ApodRecord)
    (calls : List (DtArg × Bool)) : DateCallResult :=
  let data2 := withVersion data
  let key2 := makeKey data2.date ct th
  { outcome := DateOutcome.ok data2
    cache := cachePut c key2 data2
    fetchCalls := calls
    written := some (key2, data2) }

/-- Body of get_json_for_date from line 205 on: consult RESULTS_DICT
under the request-derived key, fetch on a miss, 404 on no data, pass a
non-dict through, and otherwise finish through finishRecord. -/
def getJsonCore (fetch : Fetcher) (c : Cache) (ct th : Bool)
    (dtArg : DtArg) (useDefault : Bool) (key : String)
    (origInput : Option String) : DateCallResult :=
  match cacheGet c key with
  | some data => finishRecord c ct th data []
  | none =>
    match fetch dtArg ct useDefault th with
    | FetchResult.absent =>
      { outcome := DateOutcome.noData
          ("No data available for date: " ++ pyStrOpt origInput)
        cache := c
        fetchCalls := [(dtArg, useDefault)]
        written := none }
    | FetchResult.fault code msg =>
      { outcome := DateOutcome.passthrough code msg
        cache := c
        fetchCalls := [(dtArg, useDefault)]
        written := none }
    | FetchResult.record data => finishRecord c ct th data [(dtArg, useDefault)]

/-- Embedding of get_json_for_date (source lines 162-237). Parameters:
parse embeds datetime.strptime with format Y-m-d (returning none where
strptime raises ValueError), fetch embeds apod_handler, utcToday embeds
datetime.now(timezone.utc).date() (line 178), today embeds
datetime.today().date() inside validate_date. A falsy input (absent or
empty string) selects the default-to-today path, which keys the cache
read on the UTC today and passes the raw input itself to the fetcher
with use_default_today_date set. -/
def getJsonForDate (parse : String → Option CalendarDate) (fetch : Fetcher)
    (utcToday today : CalendarDate) (input : Option String)
    (ct th : Bool) (c : Cache) : DateCallResult :=
  match input with
  | none => getJsonCore fetch c ct th (DtArg.raw none) true
      (makeKey utcToday ct th) none
  | some s =>
    if s = "" then
      getJsonCore fetch c ct th (DtArg.raw (some s)) true
        (makeKey utcToday ct th) (some s)
    else
      match parse s with
      | none =>
        { outcome := DateOutcome.malformed, cache := c
          fetchCalls := [], written := none }
      | some dt =>
        match validateDate today dt with
        | Except.error msg =>
          { outcome := DateOutcome.outOfRange msg, cache := c
            fetchCalls := [], written := none }
        | Except.ok _ =>
          getJsonCore fetch c ct th (DtArg.parsed dt) false
            (makeKey dt ct th) (some s)

/-- Reading a key just written returns the written record. -/
theorem cacheGet_cachePut_self (c : Cache) (k : String) (r : ApodRecord) :
    cacheGet (cachePut c k r) k = some r := by
  simp [cacheGet, cachePut, List.find?]

/-- Setting the service version twice equals setting it once. -/
theorem withVersion_idem (r : ApodRecord) :
    withVersion (withVersion r) = withVersion r := rfl

/-- Setting the service version does not change the record date. -/
theorem withVersion_date (r : ApodRecord) :
    (withVersion r).date = r.date := rfl

/-- The core of get_json_for_date never produces the strptime error:
the date was parsed (or defaulted) before it runs. -/
theorem getJsonCore_ne_malformed (fetch : Fetcher) (c : Cache)
    (ct th : Bool) (dtArg : DtArg) (ud : Bool) (key : String)
    (orig : Option String) :
    (getJsonCore fetch c ct th dtArg ud key orig).outcome
      ≠ DateOutcome.malformed := by
  unfold getJsonCore
  cases cacheGet c key with
  | some data => simp [finishRecord]
  | none =>
    cases fetch dtArg ct ud th with
    | absent => simp
    | fault code msg => simp
    | record data => simp [finishRecord]

/-- The core performs either no upstream fetch (cache hit) or exactly the
one fetch with the dt argument and defaulted flag it was given. -/
theorem getJsonCore_fetchCalls (fetch : Fetcher) (c : Cache)
    (ct th : Bool) (dtArg : DtArg) (ud : Bool) (key : String)
    (orig : Option String) :
    (getJsonCore fetch c ct th dtArg ud key orig).fetchCalls = [] ∨
    (getJsonCore fetch c ct th dtArg ud key orig).fetchCalls = [(dtArg, ud)] := by
  unfold getJsonCore
  cases cacheGet c key with
  | some data => left; simp [finishRecord]
  | none =>
    cases fetch dtArg ct ud th with
    | absent => right; simp
    | fault code msg => right; simp
    | record data => right; simp [finishRecord]

/-- Any record the core returns, and any record it writes to the cache,
carries the service version. -/
theorem getJsonCore_version (fetch : Fetcher) (c : Cache)
    (ct th : Bool) (dtArg : DtArg) (ud : Bool) (key : String)
    (orig : Option String) :
    (∀ rec, (getJsonCore fetch c ct th dtArg ud key orig).outcome
        = DateOutcome.ok rec → rec.service_version = SERVICE_VERSION) ∧
    (∀ k rec, (getJsonCore fetch c ct th dtArg ud key orig).written
        = some (k, rec) → rec.service_version = SERVICE_VERSION) := by
  unfold getJsonCore
  cases cacheGet c key with
  | some data =>
    constructor
    · intro rec h
      simp [finishRecord] at h
      simp [← h, withVersion]
    · intro k rec h
      simp [finishRecord] at h
      simp [← h.2, withVersion]
  | none =>
    cases fetch dtArg ct ud th with
    | absent => simp
    | fault code msg => simp
    | record data =>
      constructor
      · intro rec h
        simp [finishRecord] at h
        simp [← h, withVersion]
      · intro k rec h
        simp [finishRecord] at h
        simp [← h.2, withVersion]

/-- C1. Cache-key convergence: the cache key under which a fetched
record is stored is recomputed from the record's own resolved date
field, so a defaulted single-date resolution and an explicit resolution
for the same calendar day X (both fetching a day-X record, issued with
the same flags) write to the same RESULTS_DICT entry, namely the key
built from X and the flags. -/
theorem c1_cache_key_convergence
    (parse : String → Option CalendarDate) (fetch : Fetcher)
    (utcToday today X : CalendarDate) (sX : String) (ct th : Bool)
    (cA cB : Cache) (r1 r2 : ApodRecord)
    (hmiss1 : cacheGet cA (makeKey utcToday ct th) = none)
    (hfetch1 : fetch (DtArg.raw none) ct true th = FetchResult.record r1)
    (hdate1 : r1.date = X)
    (hs : sX ≠ "") (hparse : parse sX = some X)
    (hvalid : validateDate today X = Except.ok ())
    (hmiss2 : cacheGet cB (makeKey X ct th) = none)
    (hfetch2 : fetch (DtArg.parsed X) ct false th = FetchResult.record r2)
    (hdate2 : r2.date = X) :
    (getJsonForDate parse fetch utcToday today none ct th cA).written
        = some (makeKey X ct th, withVersion r1) ∧
    (getJsonForDate parse fetch utcToday today (some sX) ct th cB).written
        = some (makeKey X ct th, withVersion r2) := by
  constructor
  · simp [getJsonForDate, getJsonCore, hmiss1, hfetch1, finishRecord,
      withVersion, hdate1]
  · simp [getJsonForDate, hs, hparse, hvalid, getJsonCore, hmiss2, hfetch2,
      finishRecord, withVersion, hdate2]

/-- Witness for C1: a concrete fetcher answering 1995-06-17 for both the
defaulted and the explicit request, against empty caches; both calls
write the key of 1995-06-17. -/
theorem c1_cache_key_convergence_witness :
    (cacheGet [] (makeKey ⟨1995, 6, 17⟩ true false) = none ∧
     validateDate ⟨1995, 6, 18⟩ ⟨1995, 6, 17⟩ = Except.ok ()) ∧
    ((getJsonForDate (fun s => if s = "1995-06-17" then some ⟨1995, 6, 17⟩ else none)
        (fun _ _ _ _ => FetchResult.record ⟨⟨1995, 6, 17⟩, "t", "e", ""⟩)
        ⟨1995, 6, 17⟩ ⟨1995, 6, 18⟩ none true false []).written
      = some (makeKey ⟨1995, 6, 17⟩ true false,
          withVersion ⟨⟨1995, 6, 17⟩, "t", "e", ""⟩) ∧
     (getJsonForDate (fun s => if s = "1995-06-17" then some ⟨1995, 6, 17⟩ else none)
        (fun _ _ _ _ => FetchResult.record ⟨⟨1995, 6, 17⟩, "t", "e", ""⟩)
        ⟨1995, 6, 17⟩ ⟨1995, 6, 18⟩ (some "1995-06-17") true false []).written
      = some (makeKey ⟨1995, 6, 17⟩ true false,
          withVersion ⟨⟨1995, 6, 17⟩, "t", "e", ""⟩)) := by
  refine ⟨⟨by decide, by rfl⟩, ?_⟩
  exact c1_cache_key_convergence
    (fun s => if s = "1995-06-17" then some ⟨1995, 6, 17⟩ else none)
    (fun _ _ _ _ => FetchResult.record ⟨⟨1995, 6, 17⟩, "t", "e", ""⟩)
    ⟨1995, 6, 17⟩ ⟨1995, 6, 18⟩ ⟨1995, 6, 17⟩ "1995-06-17" true false
    [] [] ⟨⟨1995, 6, 17⟩, "t", "e", ""⟩ ⟨⟨1995, 6, 17⟩, "t", "e", ""⟩
    (by decide) (by decide) (by decide) (by decide) (by decide) (by rfl)
    (by decide) (by decide) (by decide)

/-- C2. Idempotence of single-date resolution: for an explicit in-range
date d (parse succeeding, validation passing) whose upstream record
carries d as its own date, two successive calls return the identical
record, the first performing exactly one upstream fetch and the second
performing none (served from RESULTS_DICT). -/
theorem c2_idempotent_single_date
    (parse : String → Option CalendarDate) (fetch : Fetcher)
    (utcToday today d : CalendarDate) (s : String) (ct th : Bool)
    (c0 : Cache) (r : ApodRecord)
    (hs : s ≠ "") (hparse : parse s = some d)
    (hvalid : validateDate today d = Except.ok ())
    (hmiss : cacheGet c0 (makeKey d ct th) = none)
    (hfetch : fetch (DtArg.parsed d) ct false th = FetchResult.record r)
    (hdate : r.date = d) :
    (getJsonForDate parse fetch utcToday today (some s) ct th c0).outcome
        = DateOutcome.ok (withVersion r) ∧
    (getJsonForDate parse fetch utcToday today (some s) ct th c0).fetchCalls
        = [(DtArg.parsed d, false)] ∧
    (getJsonForDate parse fetch utcToday today (some s) ct th
        (getJsonForDate parse fetch utcToday today (some s) ct th c0).cache).outcome
        = DateOutcome.ok (withVersion r) ∧
    (getJsonForDate parse fetch utcToday today (some s) ct th
        (getJsonForDate parse fetch utcToday today (some s) ct th c0).cache).fetchCalls
        = [] := by
  have hcache1 :
      (getJsonForDate parse fetch utcToday today (some s) ct th c0).cache
        = cachePut c0 (makeKey d ct th) (withVersion r) := by
    simp [getJsonForDate, hs, hparse, hvalid, getJsonCore, hmiss, hfetch,
      finishRecord, withVersion, hdate]
  have hhit : cacheGet (cachePut c0 (makeKey d ct th) (withVersion r))
      (makeKey d ct th) = some (withVersion r) :=
    cacheGet_cachePut_self c0 (makeKey d ct th) (withVersion r)
  refine ⟨?_, ?_, ?_, ?_⟩
  · simp [getJsonForDate, hs, hparse, hvalid, getJsonCore, hmiss, hfetch,
      finishRecord, withVersion]
  · simp [getJsonForDate, hs, hparse, hvalid, getJsonCore, hmiss, hfetch,
      finishRecord]
  · rw [hcache1]
    simp [getJsonForDate, hs, hparse, hvalid, getJsonCore, hhit,
      finishRecord, withVersion_idem]
  · rw [hcache1]
    simp [getJsonForDate, hs, hparse, hvalid, getJsonCore, hhit,
      finishRecord]

/-- Witness for C2: the explicit date 1995-06-17 with a concrete
fetcher; the first call fetches once, the second is answered from the
cache with the identical record. -/
theorem c2_idempotent_single_date_witness :
    ("1995-06-17" ≠ "" ∧
     cacheGet [] (makeKey ⟨1995, 6, 17⟩ false true) = none ∧
     validateDate ⟨1995, 6, 18⟩ ⟨1995, 6, 17⟩ = Except.ok ()) ∧
    ((getJsonForDate (fun s => if s = "1995-06-17" then some ⟨1995, 6, 17⟩ else none)
        (fun _ _ _ _ => FetchResult.record ⟨⟨1995, 6, 17⟩, "t", "e", ""⟩)
        ⟨1995, 6, 17⟩ ⟨1995, 6, 18⟩ (some "1995-06-17") false true []).outcome
      = DateOutcome.ok (withVersion ⟨⟨1995, 6, 17⟩, "t", "e", ""⟩) ∧
     (getJsonForDate (fun s => if s = "1995-06-17" then some ⟨1995, 6, 17⟩ else none)
        (fun _ _ _ _ => FetchResult.record ⟨⟨1995, 6, 17⟩, "t", "e", ""⟩)
        ⟨1995, 6, 17⟩ ⟨1995, 6, 18⟩ (some "1995-06-17") false true
        (getJsonForDate (fun s => if s = "1995-06-17" then some ⟨1995, 6, 17⟩ else none)
          (fun _ _ _ _ => FetchResult.record ⟨⟨1995, 6, 17⟩, "t", "e", ""⟩)
          ⟨1995, 6, 17⟩ ⟨1995, 6, 18⟩ (some "1995-06-17") false true []).cache).outcome
      = DateOutcome.ok (withVersion ⟨⟨1995, 6, 17⟩, "t", "e", ""⟩) ∧
     (getJsonForDate (fun s => if s = "1995-06-17" then some ⟨1995, 6, 17⟩ else none)
        (fun _ _ _ _ => FetchResult.record ⟨⟨1995, 6, 17⟩, "t", "e", ""⟩)
        ⟨1995, 6, 17⟩ ⟨1995, 6, 18⟩ (some "1995-06-17") false true
        (getJsonForDate (fun s => if s = "1995-06-17" then some ⟨1995, 6, 17⟩ else none)
          (fun _ _ _ _ => FetchResult.record ⟨⟨1995, 6, 17⟩, "t", "e", ""⟩)
          ⟨1995, 6, 17⟩ ⟨1995, 6, 18⟩ (some "1995-06-17") false true []).cache).fetchCalls
      = []) := by
  refine ⟨⟨by decide, by decide, by rfl⟩, ?_⟩
  have h := c2_idempotent_single_date
    (fun s => if s = "1995-06-17" then some ⟨1995, 6, 17⟩ else none)
    (fun _ _ _ _ => FetchResult.record ⟨⟨1995, 6, 17⟩, "t", "e", ""⟩)
    ⟨1995, 6, 17⟩ ⟨1995, 6, 18⟩ ⟨1995, 6, 17⟩ "1995-06-17" false true
    [] ⟨⟨1995, 6, 17⟩, "t", "e", ""⟩
    (by decide) (by decide) (by rfl) (by decide) (by decide) (by decide)
  exact ⟨h.1, h.2.2.1, h.2.2.2⟩

/-- C10. A falsy date input (absent or the empty string) selects the
default-to-today path: the outcome is never the strptime failure, and
any upstream fetch performed carries the raw input with the
use_default_today_date mark set; the strptime failure can only arise
from a non-empty input string that does not parse. -/
theorem c10_empty_date_defaults
    (parse : String → Option CalendarDate) (fetch : Fetcher)
    (utcToday today : CalendarDate) (ct th : Bool) (c : Cache) :
    ((getJsonForDate parse fetch utcToday today (some "") ct th c).outcome
        ≠ DateOutcome.malformed) ∧
    ((getJsonForDate parse fetch utcToday today none ct th c).outcome
        ≠ DateOutcome.malformed) ∧
    (∀ call ∈ (getJsonForDate parse fetch utcToday today (some "") ct th c).fetchCalls,
        call = (DtArg.raw (some ""), true)) ∧
    (∀ call ∈ (getJsonForDate parse fetch utcToday today none ct th c).fetchCalls,
        call = (DtArg.raw none, true)) ∧
    (∀ input, (getJsonForDate parse fetch utcToday today input ct th c).outcome
        = DateOutcome.malformed →
      ∃ s, input = some s ∧ s ≠ "" ∧ parse s = none) := by
  refine ⟨?_, ?_, ?_, ?_, ?_⟩
  · simpa [getJsonForDate] using
      getJsonCore_ne_malformed fetch c ct th (DtArg.raw (some "")) true
        (makeKey utcToday ct th) (some "")
  · simpa [getJsonForDate] using
      getJsonCore_ne_malformed fetch c ct th (DtArg.raw none) true
        (makeKey utcToday ct th) none
  · intro call hcall
    have hred : getJsonForDate parse fetch utcToday today (some "") ct th c
        = getJsonCore fetch c ct th (DtArg.raw (some "")) true
            (makeKey utcToday ct th) (some "") := by
      simp [getJsonForDate]
    rw [hred] at hcall
    rcases getJsonCore_fetchCalls fetch c ct th (DtArg.raw (some "")) true
        (makeKey utcToday ct th) (some "") with h | h <;> rw [h] at hcall
    · simp at hcall
    · simpa using hcall
  · intro call hcall
    have hred : getJsonForDate parse fetch utcToday today none ct th c
        = getJsonCore fetch c ct th (DtArg.raw none) true
            (makeKey utcToday ct th) none := rfl
    rw [hred] at hcall
    rcases getJsonCore_fetchCalls fetch c ct th (DtArg.raw none) true
        (makeKey utcToday ct th) none with h | h <;> rw [h] at hcall
    · simp at hcall
    · simpa using hcall
  · intro input hmal
    match input with
    | none =>
      exact absurd hmal (by
        simpa [getJsonForDate] using
          getJsonCore_ne_malformed fetch c ct th (DtArg.raw none) true
            (makeKey utcToday ct th) none)
    | some s =>
      by_cases hs : s = ""
      · subst hs
        exact absurd hmal (by
          simpa [getJsonForDate] using
            getJsonCore_ne_malformed fetch c ct th (DtArg.raw (some "")) true
              (makeKey utcToday ct th) (some ""))
      · refine ⟨s, rfl, hs, ?_⟩
        by_contra hparse
        rcases Option.ne_none_iff_exists.mp hparse with ⟨dt, hdt⟩
        rcases hval : validateDate today dt with msg | u
        · have hred : getJsonForDate parse fetch utcToday today (some s) ct th c
              = { outcome := DateOutcome.outOfRange msg, cache := c,
                  fetchCalls := [], written := none } := by
            simp [getJsonForDate, hs, ← hdt, hval]
          rw [hred] at hmal
          simp at hmal
        · have hred : getJsonForDate parse fetch utcToday today (some s) ct th c
              = getJsonCore fetch c ct th (DtArg.parsed dt) false
                  (makeKey dt ct th) (some s) := by
            simp [getJsonForDate, hs, ← hdt, hval]
          rw [hred] at hmal
          exact getJsonCore_ne_malformed fetch c ct th (DtArg.parsed dt) false
            (makeKey dt ct th) (some s) hmal

/-- Witness for C10: with a concrete parser the empty-string call does
not produce the strptime failure, while the unparsable string "bad"
does, and is exhibited as non-empty and unparsable. -/
theorem c10_empty_date_defaults_witness :
    ((getJsonForDate (fun s => if s = "1995-06-17" then some ⟨1995, 6, 17⟩ else none)
        (fun _ _ _ _ => FetchResult.record ⟨⟨1995, 6, 17⟩, "t", "e", ""⟩)
        ⟨1995, 6, 17⟩ ⟨1995, 6, 18⟩ (some "") true false []).outcome
      ≠ DateOutcome.malformed) ∧
    ((getJsonForDate (fun s => if s = "1995-06-17" then some ⟨1995, 6, 17⟩ else none)
        (fun _ _ _ _ => FetchResult.record ⟨⟨1995, 6, 17⟩, "t", "e", ""⟩)
        ⟨1995, 6, 17⟩ ⟨1995, 6, 18⟩ (some "bad") true false []).outcome
      = DateOutcome.malformed ∧
     ∃ s, (some "bad" : Option String) = some s ∧ s ≠ "" ∧
       (fun s => if s = "1995-06-17" then some (⟨1995, 6, 17⟩ : CalendarDate) else none) s
         = none) := by
  refine ⟨?_, by decide, ?_⟩
  · exact (c10_empty_date_defaults
      (fun s => if s = "1995-06-17" then some ⟨1995, 6, 17⟩ else none)
      (fun _ _ _ _ => FetchResult.record ⟨⟨1995, 6, 17⟩, "t", "e", ""⟩)
      ⟨1995, 6, 17⟩ ⟨1995, 6, 18⟩ true false []).1
  · exact (c10_empty_date_defaults
      (fun s => if s = "1995-06-17" then some ⟨1995, 6, 17⟩ else none)
      (fun _ _ _ _ => FetchResult.record ⟨⟨1995, 6, 17⟩, "t", "e", ""⟩)
      ⟨1995, 6, 17⟩ ⟨1995, 6, 18⟩ true false []).2.2.2.2 (some "bad") (by decide)

/-!
Part B: range and random-sample resolution, over ordinal-embedded dates.
The source converts dates to proleptic-Gregorian ordinals with
toordinal and back with fromordinal; ordinal order coincides with date
order, so a date in this part is embedded by its ordinal.
-/

/-- Gregorian leap-year test, as in the proleptic calendar of the
datetime module. -/
def isLeapYear (y : Nat) : Bool :=
  y % 4 == 0 && (y % 100 != 0 || y % 400 == 0)

/-- Days in a month of a given year. -/
def daysInMonth (y m : Nat) : Nat :=
  match m with
  | 2 => if isLeapYear y then 29 else 28
  | 4 => 30 | 6 => 30 | 9 => 30 | 11 => 30
  | _ => 31

/-- Days in the year before the first of the given month. -/
def daysBeforeMonth (y m : Nat) : Nat :=
  (List.range' 1 (m - 1)).foldl (fun acc mm => acc + daysInMonth y mm) 0

/-- Days before January 1st of the given year, datetime's
days-before-year count. -/
def daysBeforeYear (y : Nat) : Nat :=
  let n := y - 1
  n * 365 + n / 4 - n / 100 + n / 400

/-- The toordinal conversion of the datetime module: day 1 is
0001-01-01 of the proleptic Gregorian calendar. -/
def toOrdinal (y m d : Nat) : Nat :=
  daysBeforeYear y + daysBeforeMonth y m + d

/-- Ordinal of the epoch datetime(1995, 6, 16).toordinal() computed at
source line 250. -/
def epochOrdinal : Nat := toOrdinal 1995 6 16

/-- Sanity value of the epoch ordinal, matching the Python value. -/
theorem epochOrdinal_eq : epochOrdinal = 728460 := by decide

/-- Record of the ordinal world: the date field (an ISO string in the
source) is embedded as the ordinal of the date it denotes. -/
structure ApodRecordO where
  date : Nat
  title : String
  explanation : String
  service_version : String
deriving DecidableEq, Repr

/-- Setting data["service_version"] = SERVICE_VERSION in the ordinal
world (source lines 270 and 326). -/
def withVersionO (r : ApodRecordO) : ApodRecordO :=
  { r with service_version := SERVICE_VERSION }

/-- Outcome of one apod_handler call in the ordinal world. -/
inductive FetchResultO where
  | absent
  | fault (code : Nat) (msg : String)
  | record (r : ApodRecordO)
deriving DecidableEq, Repr

/-- Fetcher of the ordinal world: arguments are the requested ordinal
(the dt argument date.fromordinal(date_ordinal) of the source),
use_concept_tags, use_default_today_date, thumbs. -/
abbrev FetcherO := Nat → Bool → Bool → Bool → FetchResultO

/-- Validation bound check of validate_date at the ordinal level:
a date is in bounds when it is neither after today nor before the
epoch; ordinal comparison coincides with date comparison. -/
def dateInBounds (todayOrd o : Nat) : Bool :=
  !(decide (todayOrd < o) || decide (o < epochOrdinal))

/-- The while loop of get_json_for_date_range (source lines 309-332)
over the list of visited ordinals: fetch each day, skip a falsy or
non-dict result, set the service version, and keep the record only when
its own date field equals the requested day (the skew guard, line 328). -/
def rangeLoop (fetch : FetcherO) (ct th : Bool) (todayOrd : Nat) :
    List Nat → List ApodRecordO
  | [] => []
  | o :: rest =>
    match fetch o ct (o == todayOrd) th with
    | FetchResultO.record r =>
      let r2 := withVersionO r
      if r2.date == o then r2 :: rangeLoop fetch ct th todayOrd rest
      else rangeLoop fetch ct th todayOrd rest
    | _ => rangeLoop fetch ct th todayOrd rest

/-- Outcome of get_json_for_date_range: the record list, or the
ValueError of validate_date on either bound, or the ValueError 
"start_date cannot be after end_date" (source line 305). -/
inductive RangeOutcome where
  | ok (recs : List ApodRecordO)
  | outOfRange
  | invalidRange
deriving DecidableEq, Repr

/-- Embedding of get_json_for_date_range (source lines 278-335) at the
ordinal level: the start and end parameters arrive already parsed to
ordinals (the strptime step and the default of an absent end date to
today are outside this claim); validate the start, validate the end,
fail when start is after end, then run the fetch loop over the
ordinals from start to end inclusive. -/
def getJsonForDateRange (fetch : FetcherO) (ct th : Bool)
    (todayOrd startOrd endOrd : Nat) : RangeOutcome :=
  if !dateInBounds todayOrd startOrd then RangeOutcome.outOfRange
  else if !dateInBounds todayOrd endOrd then RangeOutcome.outOfRange
  else if decide (endOrd < startOrd) then RangeOutcome.invalidRange
  else RangeOutcome.ok
    (rangeLoop fetch ct th todayOrd (List.range' startOrd (endOrd + 1 - startOrd)))

/-- The for loop of get_json_for_random_dates (source lines 257-273)
over the shuffled ordinals: fetch each day, skip a falsy or non-dict
result, set the service version, append, and stop once the accumulated
records reach the requested count. -/
def randomLoop (fetch : FetcherO) (ct th : Bool) (todayOrd : Nat)
    (count : Int) : List Nat → List ApodRecordO → List ApodRecordO
  | [], acc => acc
  | o :: rest, acc =>
    match fetch o ct (o == todayOrd) th with
    | FetchResultO.record r =>
      let acc2 := acc ++ [withVersionO r]
      if count ≤ (acc2.length : Int) then acc2
      else randomLoop fetch ct th todayOrd count rest acc2
    | _ => randomLoop fetch ct th todayOrd count rest acc

/-- Embedding of get_json_for_random_dates (source lines 240-275).
The count arrives as a (possibly negative) integer, as int(count) does;
the shuffled permutation of the ordinal range [epoch, today] produced
by shuffle is a parameter, since the random module is external. -/
def getJsonForRandomDates (fetch : FetcherO) (ct th : Bool) (todayOrd : Nat)
    (shuffled : List Nat) (count : Int) : Except String (List ApodRecordO) :=
  if decide ((100 : Int) < count) || decide (count ≤ 0) then
    Except.error "Count must be positive and cannot exceed 100"
  else
    Except.ok (randomLoop fetch ct th todayOrd count shuffled [])

/-- Result cache of the ordinal world, for stating what the random
shape does (and does not do) with RESULTS_DICT. -/
abbrev CacheO := List (String × ApodRecordO)

/-- Dictionary lookup in the ordinal world. -/
def cacheGetO (c : CacheO) (k : String) : Option ApodRecordO :=
  (c.find? (fun p => p.1 == k)).map (fun p => p.2)

/-- Embedding of get_json_for_random_dates with the process-global
RESULTS_DICT threaded through as explicit state. The body of the source
function (lines 240-275) contains no read of and no assignment to
RESULTS_DICT, so the threaded cache passes through untouched. -/
def getJsonForRandomDatesState (fetch : FetcherO) (ct th : Bool)
    (todayOrd : Nat) (shuffled : List Nat) (count : Int) (cache : CacheO) :
    Except String (List ApodRecordO) × CacheO :=
  (getJsonForRandomDates fetch ct th todayOrd shuffled count, cache)

/-- Membership characterization of the range loop: a record is in the
output exactly when some visited ordinal fetched a record that, with
the service version set, carries that very ordinal as its own date
(this is the skew guard: a fetched record whose date disagrees with
the requested day contributes nothing). -/
theorem rangeLoop_mem (fetch : FetcherO) (ct th : Bool) (todayOrd : Nat)
    (l : List Nat) (rec : ApodRecordO) :
    rec ∈ rangeLoop fetch ct th todayOrd l ↔
      ∃ o, o ∈ l ∧ ∃ r, fetch o ct (o == todayOrd) th = FetchResultO.record r ∧
        rec = withVersionO r ∧ rec.date = o := by
  induction l with
  | nil => simp [rangeLoop]
  | cons o rest ih =>
    rw [rangeLoop]
    cases hf : fetch o ct (o == todayOrd) th with
    | record r =>
      simp only []
      by_cases hg : (withVersionO r).date = o
      · rw [if_pos (by simpa using hg)]
        constructor
        · intro hmem
          rcases List.mem_cons.mp hmem with h | h
          · exact ⟨o, List.mem_cons_self o rest, r, hf, by rw [h], by rw [h]; exact hg⟩
          · rcases ih.mp h with ⟨o2, ho2, r2, hf2, hrec, hdate⟩
            exact ⟨o2, List.mem_cons_of_mem o ho2, r2, hf2, hrec, hdate⟩
        · intro hex
          rcases hex with ⟨o2, ho2, r2, hf2, hrec, hdate⟩
          rcases List.mem_cons.mp ho2 with h | h
          · subst h
            rw [hf] at hf2
            cases hf2
            rw [hrec]
            exact List.mem_cons_self _ _
          · exact List.mem_cons_of_mem _ (ih.mpr ⟨o2, h, r2, hf2, hrec, hdate⟩)
      · rw [if_neg (by simpa using hg)]
        rw [ih]
        constructor
        · intro hex
          rcases hex with ⟨o2, ho2, r2, hf2, hrec, hdate⟩
          exact ⟨o2, List.mem_cons_of_mem o ho2, r2, hf2, hrec, hdate⟩
        · intro hex
          rcases hex with ⟨o2, ho2, r2, hf2, hrec, hdate⟩
          rcases List.mem_cons.mp ho2 with h | h
          · subst h
            rw [hf] at hf2
            cases hf2
            exact absurd (hrec ▸ hdate) hg
          · exact ⟨o2, h, r2, hf2, hrec, hdate⟩
    | absent =>
      simp only []
      rw [ih]
      constructor
      · intro hex
        rcases hex with ⟨o2, ho2, r2, hf2, hrec, hdate⟩
        exact ⟨o2, List.mem_cons_of_mem o ho2, r2, hf2, hrec, hdate⟩
      · intro hex
        rcases hex with ⟨o2, ho2, r2, hf2, hrec, hdate⟩
        rcases List.mem_cons.mp ho2 with h | h
        · subst h
          rw [hf] at hf2
          cases hf2
        · exact ⟨o2, h, r2, hf2, hrec, hdate⟩
    | fault code msg =>
      simp only []
      rw [ih]
      constructor
      · intro hex
        rcases hex with ⟨o2, ho2, r2, hf2, hrec, hdate⟩
        exact ⟨o2, List.mem_cons_of_mem o ho2, r2, hf2, hrec, hdate⟩
      · intro hex
        rcases hex with ⟨o2, ho2, r2, hf2, hrec, hdate⟩
        rcases List.mem_cons.mp ho2 with h | h
        · subst h
          rw [hf] at hf2
          cases hf2
        · exact ⟨o2, h, r2, hf2, hrec, hdate⟩

/-- The dates of the range-loop output form a sublist of the visited
ordinals: the skew guard keeps the requested day itself as each kept
record's date, in visiting order. -/
theorem rangeLoop_dates_sublist (fetch : FetcherO) (ct th : Bool)
    (todayOrd : Nat) (l : List Nat) :
    ((rangeLoop fetch ct th todayOrd l).map (fun r => r.date)).Sublist l := by
  induction l with
  | nil => simp [rangeLoop]
  | cons o rest ih =>
    rw [rangeLoop]
    cases hf : fetch o ct (o == todayOrd) th with
    | record r =>
      simp only []
      by_cases hg : (withVersionO r).date = o
      · rw [if_pos (by simpa using hg)]
        simpa [hg] using List.Sublist.cons₂ o ih
      · rw [if_neg (by simpa using hg)]
        exact List.Sublist.cons o ih
    | absent => exact List.Sublist.cons o ih
    | fault code msg => exact List.Sublist.cons o ih

/-- Every record the range loop outputs carries the service version. -/
theorem rangeLoop_version (fetch : FetcherO) (ct th : Bool)
    (todayOrd : Nat) (l : List Nat) (rec : ApodRecordO)
    (h : rec ∈ rangeLoop fetch ct th todayOrd l) :
    rec.service_version = SERVICE_VERSION := by
  rcases (rangeLoop_mem fetch ct th todayOrd l rec).mp h with
    ⟨o, ho, r, hf, hrec, hdate⟩
  rw [hrec]
  rfl

/-- The random loop never grows the accumulator beyond the requested
count (the loop breaks as soon as the count is reached). -/
theorem randomLoop_length (fetch : FetcherO) (ct th : Bool)
    (todayOrd : Nat) (count : Int) (l : List Nat) :
    ∀ acc : List ApodRecordO, (acc.length : Int) < count →
      (((randomLoop fetch ct th todayOrd count l acc).length : Int)) ≤ count := by
  induction l with
  | nil =>
    intro acc hlt
    rw [randomLoop]
    exact le_of_lt hlt
  | cons o rest ih =>
    intro acc hlt
    rw [randomLoop]
    cases hf : fetch o ct (o == todayOrd) th with
    | record r =>
      simp only []
      by_cases hstop : count ≤ ((acc ++ [withVersionO r]).length : Int)
      · rw [if_pos hstop]
        simp only [List.length_append, List.length_cons, List.length_nil]
        push_cast
        omega
      · rw [if_neg hstop]
        exact ih (acc ++ [withVersionO r]) (lt_of_not_le hstop)
    | absent => exact ih acc hlt
    | fault code msg => exact ih acc hlt

/-- With a fetcher whose records carry the requested day as their own
date, the random loop appends records whose dates form a sublist of
the remaining shuffled ordinals, in visiting order. -/
theorem randomLoop_dates (fetch : FetcherO) (ct th : Bool)
    (todayOrd : Nat) (count : Int)
    (hfaith : ∀ o df r, fetch o ct df th = FetchResultO.record r → r.date = o)
    (l : List Nat) :
    ∀ acc : List ApodRecordO, ∃ l2 : List Nat, l2.Sublist l ∧
      (randomLoop fetch ct th todayOrd count l acc).map (fun r => r.date)
        = acc.map (fun r => r.date) ++ l2 := by
  induction l with
  | nil =>
    intro acc
    exact ⟨[], List.nil_sublist [], by simp [randomLoop]⟩
  | cons o rest ih =>
    intro acc
    rw [randomLoop]
    cases hf : fetch o ct (o == todayOrd) th with
    | record r =>
      have hdate : (withVersionO r).date = o := hfaith o (o == todayOrd) r hf
      simp only []
      by_cases hstop : count ≤ ((acc ++ [withVersionO r]).length : Int)
      · rw [if_pos hstop]
        refine ⟨[o], List.Sublist.cons₂ o (List.nil_sublist rest), ?_⟩
        simp [hdate]
      · rw [if_neg hstop]
        rcases ih (acc ++ [withVersionO r]) with ⟨l2, hsub, heq⟩
        refine ⟨o :: l2, List.Sublist.cons₂ o hsub, ?_⟩
        rw [heq]
        simp [hdate]
    | absent =>
      rcases ih acc with ⟨l2, hsub, heq⟩
      exact ⟨l2, List.Sublist.cons o hsub, heq⟩
    | fault code msg =>
      rcases ih acc with ⟨l2, hsub, heq⟩
      exact ⟨l2, List.Sublist.cons o hsub, heq⟩

/-- Every record the random loop adds to the accumulator carries the
service version. -/
theorem randomLoop_version (fetch : FetcherO) (ct th : Bool)
    (todayOrd : Nat) (count : Int) (l : List Nat) :
    ∀ acc rec, rec ∈ randomLoop fetch ct th todayOrd count l acc →
      rec ∈ acc ∨ rec.service_version = SERVICE_VERSION := by
  induction l with
  | nil =>
    intro acc rec h
    rw [randomLoop] at h
    exact Or.inl h
  | cons o rest ih =>
    intro acc rec h
    rw [randomLoop] at h
    cases hf : fetch o ct (o == todayOrd) th with
    | record r =>
      rw [hf] at h
      simp only [] at h
      by_cases hstop : count ≤ ((acc ++ [withVersionO r]).length : Int)
      · rw [if_pos hstop] at h
        rcases List.mem_append.mp h with h2 | h2
        · exact Or.inl h2
        · right
          rw [List.mem_singleton.mp h2]
          rfl
      · rw [if_neg hstop] at h
        rcases ih (acc ++ [withVersionO r]) rec h with h2 | h2
        · rcases List.mem_append.mp h2 with h3 | h3
          · exact Or.inl h3
          · right
            rw [List.mem_singleton.mp h3]
            rfl
        · exact Or.inr h2
    | absent =>
      rw [hf] at h
      exact ih acc rec h
    | fault code msg =>
      rw [hf] at h
      exact ih acc rec h

/-- C4. Range resolution: for valid (in-bounds) start and end, the call
fails with the invalid-range error when start is after end; otherwise
it returns a sequence strictly ordered by ascending date in which a
record appears exactly when its own date field equals the ordinal it
was requested for (so the skew guard drops, without error, any fetched
record whose date disagrees with the requested day). -/
theorem c4_range_resolution (fetch : FetcherO) (ct th : Bool)
    (todayOrd startOrd endOrd : Nat)
    (hs1 : epochOrdinal ≤ startOrd) (hs2 : startOrd ≤ todayOrd)
    (he1 : epochOrdinal ≤ endOrd) (he2 : endOrd ≤ todayOrd) :
    (endOrd < startOrd →
      getJsonForDateRange fetch ct th todayOrd startOrd endOrd
        = RangeOutcome.invalidRange) ∧
    (startOrd ≤ endOrd →
      ∃ recs, getJsonForDateRange fetch ct th todayOrd startOrd endOrd
          = RangeOutcome.ok recs ∧
        (recs.map (fun r => r.date)).Pairwise (fun a b => a < b) ∧
        (∀ rec, rec ∈ recs ↔ ∃ o, startOrd ≤ o ∧ o ≤ endOrd ∧
          ∃ r, fetch o ct (o == todayOrd) th = FetchResultO.record r ∧
            rec = withVersionO r ∧ rec.date = o)) := by
  have hb1 : dateInBounds todayOrd startOrd = true := by
    simp [dateInBounds]
    omega
  have hb2 : dateInBounds todayOrd endOrd = true := by
    simp [dateInBounds]
    omega
  constructor
  · intro hlt
    simp [getJsonForDateRange, hb1, hb2, hlt]
  · intro hle
    refine ⟨rangeLoop fetch ct th todayOrd
        (List.range' startOrd (endOrd + 1 - startOrd)), ?_, ?_, ?_⟩
    · simp [getJsonForDateRange, hb1, hb2, Nat.not_lt.mpr hle]
    · exact List.Pairwise.sublist
        (rangeLoop_dates_sublist fetch ct th todayOrd
          (List.range' startOrd (endOrd + 1 - startOrd)))
        (List.pairwise_lt_range' startOrd (endOrd + 1 - startOrd))
    · intro rec
      rw [rangeLoop_mem]
      constructor
      · rintro ⟨o, ho, r, hf, hrec, hdate⟩
        rcases List.mem_range'_1.mp ho with ⟨h1, h2⟩
        exact ⟨o, h1, by omega, r, hf, hrec, hdate⟩
      · rintro ⟨o, h1, h2, r, hf, hrec, hdate⟩
        exact ⟨o, List.mem_range'_1.mpr ⟨h1, by omega⟩, r, hf, hrec, hdate⟩

/-- Witness for C4 at a one-day range: start, end and today all equal
to the epoch ordinal, with a fetcher answering each requested day with
a record carrying that day. -/
theorem c4_range_resolution_witness :
    (epochOrdinal ≤ epochOrdinal ∧ epochOrdinal ≤ epochOrdinal) ∧
    (∃ recs, getJsonForDateRange
        (fun o _ _ _ => FetchResultO.record ⟨o, "t", "e", ""⟩)
        false false epochOrdinal epochOrdinal epochOrdinal
          = RangeOutcome.ok recs ∧
      (recs.map (fun r => r.date)).Pairwise (fun a b => a < b) ∧
      (∀ rec, rec ∈ recs ↔ ∃ o, epochOrdinal ≤ o ∧ o ≤ epochOrdinal ∧
        ∃ r, (fun o _ _ _ => FetchResultO.record (⟨o, "t", "e", ""⟩ : ApodRecordO))
            o false (o == epochOrdinal) false = FetchResultO.record r ∧
          rec = withVersionO r ∧ rec.date = o)) := by
  refine ⟨⟨le_refl _, le_refl _⟩, ?_⟩
  exact (c4_range_resolution
    (fun o _ _ _ => FetchResultO.record ⟨o, "t", "e", ""⟩)
    false false epochOrdinal epochOrdinal epochOrdinal
    (le_refl _) (le_refl _) (le_refl _) (le_refl _)).2 (le_refl _)

/-- C5. Random-sample resolution: a count outside (0, 100] fails with
the invalid-count error; a count within bounds, run over a shuffled
permutation of the ordinal range from the epoch to today with a
fetcher whose records carry the requested day, returns at most count
records, with pairwise-distinct dates, all within the epoch-to-today
bounds. -/
theorem c5_random_resolution (fetch : FetcherO) (ct th : Bool)
    (todayOrd : Nat) (shuffled : List Nat) (count : Int) :
    (count ≤ 0 ∨ 100 < count →
      getJsonForRandomDates fetch ct th todayOrd shuffled count
        = Except.error "Count must be positive and cannot exceed 100") ∧
    (0 < count → count ≤ 100 →
      shuffled.Perm (List.range' epochOrdinal (todayOrd + 1 - epochOrdinal)) →
      (∀ o df r, fetch o ct df th = FetchResultO.record r → r.date = o) →
      ∃ recs, getJsonForRandomDates fetch ct th todayOrd shuffled count
          = Except.ok recs ∧
        (recs.length : Int) ≤ count ∧
        (recs.map (fun r => r.date)).Nodup ∧
        ∀ rec ∈ recs, epochOrdinal ≤ rec.date ∧ rec.date ≤ todayOrd) := by
  constructor
  · intro h
    have hcond : (decide ((100 : Int) < count) || decide (count ≤ 0)) = true := by
      rcases h with h | h <;> simp [h]
    simp [getJsonForRandomDates, hcond]
  · intro hpos hle hperm hfaith
    have hcond : (decide ((100 : Int) < count) || decide (count ≤ 0)) = false := by
      simp
      omega
    refine ⟨randomLoop fetch ct th todayOrd count shuffled [], ?_, ?_, ?_, ?_⟩
    · simp [getJsonForRandomDates, hcond]
    · exact randomLoop_length fetch ct th todayOrd count shuffled []
        (by simpa using hpos)
    · rcases randomLoop_dates fetch ct th todayOrd count hfaith shuffled []
        with ⟨l2, hsub, heq⟩
      rw [heq]
      have hnodup : shuffled.Nodup :=
        (hperm.nodup_iff).mpr
          (List.nodup_range' epochOrdinal (todayOrd + 1 - epochOrdinal))
      simpa using hnodup.sublist hsub
    · intro rec hrec
      rcases randomLoop_dates fetch ct th todayOrd count hfaith shuffled []
        with ⟨l2, hsub, heq⟩
      have hmemdate : rec.date ∈
          (randomLoop fetch ct th todayOrd count shuffled []).map
            (fun r => r.date) :=
        List.mem_map.mpr ⟨rec, hrec, rfl⟩
      rw [heq] at hmemdate
      simp only [List.map_nil, List.nil_append] at hmemdate
      have hms : rec.date ∈ shuffled := hsub.subset hmemdate
      have hmr : rec.date ∈ List.range' epochOrdinal (todayOrd + 1 - epochOrdinal) :=
        (hperm.mem_iff).mp hms
      rcases List.mem_range'_1.mp hmr with ⟨h1, h2⟩
      exact ⟨h1, by omega⟩

/-- Witness for C5: today is the epoch day, the shuffled permutation is
the singleton epoch ordinal, count is one, and the fetcher answers the
requested day; the invalid-count conjunct is exercised at count
zero through the same theorem applied separately in the proof. -/
theorem c5_random_resolution_witness :
    (getJsonForRandomDates (fun o _ _ _ => FetchResultO.record ⟨o, "t", "e", ""⟩)
        false false epochOrdinal [epochOrdinal] 0
      = Except.error "Count must be positive and cannot exceed 100") ∧
    (∃ recs, getJsonForRandomDates
        (fun o _ _ _ => FetchResultO.record ⟨o, "t", "e", ""⟩)
        false false epochOrdinal [epochOrdinal] 1
          = Except.ok recs ∧
      (recs.length : Int) ≤ 1 ∧
      (recs.map (fun r => r.date)).Nodup ∧
      ∀ rec ∈ recs, epochOrdinal ≤ rec.date ∧ rec.date ≤ epochOrdinal) := by
  constructor
  · exact (c5_random_resolution
      (fun o _ _ _ => FetchResultO.record ⟨o, "t", "e", ""⟩)
      false false epochOrdinal [epochOrdinal] 0).1 (Or.inl (by norm_num))
  · exact (c5_random_resolution
      (fun o _ _ _ => FetchResultO.record ⟨o, "t", "e", ""⟩)
      false false epochOrdinal [epochOrdinal] 1).2 (by norm_num) (by norm_num)
      (by
        have h1 : epochOrdinal + 1 - epochOrdinal = 1 := by omega
        rw [h1]
        have h2 : List.range' epochOrdinal 1 = [epochOrdinal] := rfl
        rw [h2])
      (by
        intro o df r h
        cases h
        rfl)

/-- C6 counterexample. The claim says every record successfully fetched
by random-sample resolution is written into RESULTS_DICT: running the
resolution with the cache threaded through, a fetch succeeds and its
record is returned, yet the resulting cache is the unchanged empty
cache, holding that record under no key. -/
theorem c6_counterexample :
    getJsonForRandomDatesState
        (fun o _ _ _ => FetchResultO.record ⟨o, "t", "e", ""⟩)
        false false epochOrdinal [epochOrdinal] 1 []
      = (Except.ok [⟨epochOrdinal, "t", "e", "v1"⟩], ([] : CacheO)) ∧
    ¬ ∃ k, cacheGetO
        (getJsonForRandomDatesState
          (fun o _ _ _ => FetchResultO.record ⟨o, "t", "e", ""⟩)
          false false epochOrdinal [epochOrdinal] 1 []).2 k
      = some ⟨epochOrdinal, "t", "e", "v1"⟩ := by
  constructor
  · rfl
  · rintro ⟨k, hk⟩
    simp [cacheGetO, getJsonForRandomDatesState] at hk

/-- C6 as amended: random-sample resolution neither consults
RESULTS_DICT before fetching nor writes fetched records into it — the
threaded cache passes through unchanged and the returned records do
not depend on it. -/
theorem c6_random_cache_untouched (fetch : FetcherO) (ct th : Bool)
    (todayOrd : Nat) (shuffled : List Nat) (count : Int) (c1 c2 : CacheO) :
    (getJsonForRandomDatesState fetch ct th todayOrd shuffled count c1).2 = c1 ∧
    (getJsonForRandomDatesState fetch ct th todayOrd shuffled count c1).1
      = (getJsonForRandomDatesState fetch ct th todayOrd shuffled count c2).1 :=
  ⟨rfl, rfl⟩

/-- Shape lemma for get_json_for_date: every call either reduces to the
cache-and-fetch core, or is one of the two early validation failures,
which return no record and write nothing. -/
theorem getJsonForDate_shape (parse : String → Option CalendarDate)
    (fetch : Fetcher) (utcToday today : CalendarDate) (input : Option String)
    (ct th : Bool) (c : Cache) :
    (∃ dtArg ud key orig, getJsonForDate parse fetch utcToday today input ct th c
        = getJsonCore fetch c ct th dtArg ud key orig) ∨
    ((getJsonForDate parse fetch utcToday today input ct th c).written = none ∧
      ∀ rec, (getJsonForDate parse fetch utcToday today input ct th c).outcome
        ≠ DateOutcome.ok rec) := by
  match input with
  | none =>
    exact Or.inl ⟨DtArg.raw none, true, makeKey utcToday ct th, none, rfl⟩
  | some s =>
    by_cases hs : s = ""
    · subst hs
      exact Or.inl ⟨DtArg.raw (some ""), true, makeKey utcToday ct th,
        some "", by simp [getJsonForDate]⟩
    · rcases hp : parse s with _ | dt
      · right
        have hred : getJsonForDate parse fetch utcToday today (some s) ct th c
            = { outcome := DateOutcome.malformed, cache := c,
                fetchCalls := [], written := none } := by
          simp [getJsonForDate, hs, hp]
        rw [hred]
        simp
      · rcases hv : validateDate today dt with msg | u
        · right
          have hred : getJsonForDate parse fetch utcToday today (some s) ct th c
              = { outcome := DateOutcome.outOfRange msg, cache := c,
                  fetchCalls := [], written := none } := by
            simp [getJsonForDate, hs, hp, hv]
          rw [hred]
          simp
        · left
          refine ⟨DtArg.parsed dt, false, makeKey dt ct th, some s, ?_⟩
          simp [getJsonForDate, hs, hp, hv]

/-- C9. Every record returned by any of the three resolution shapes
(single-date, random-sample, range) carries service_version "v1", set
by the resolver before the record is returned; the single-date shape
also stamps the record it writes into RESULTS_DICT. -/
theorem c9_service_version :
    (∀ parse fetch utcToday today input ct th c rec,
      (getJsonForDate parse fetch utcToday today input ct th c).outcome
          = DateOutcome.ok rec →
      rec.service_version = "v1") ∧
    (∀ parse fetch utcToday today input ct th c k rec,
      (getJsonForDate parse fetch utcToday today input ct th c).written
          = some (k, rec) →
      rec.service_version = "v1") ∧
    (∀ fetch ct th todayOrd shuffled count recs,
      getJsonForRandomDates fetch ct th todayOrd shuffled count
          = Except.ok recs →
      ∀ rec ∈ recs, rec.service_version = "v1") ∧
    (∀ fetch ct th todayOrd startOrd endOrd recs,
      getJsonForDateRange fetch ct th todayOrd startOrd endOrd
          = RangeOutcome.ok recs →
      ∀ rec ∈ recs, rec.service_version = "v1") := by
  refine ⟨?_, ?_, ?_, ?_⟩
  · intro parse fetch utcToday today input ct th c rec h
    rcases getJsonForDate_shape parse fetch utcToday today input ct th c with
      ⟨dtArg, ud, key, orig, heq⟩ | ⟨hw, hno⟩
    · rw [heq] at h
      exact (getJsonCore_version fetch c ct th dtArg ud key orig).1 rec h
    · exact absurd h (hno rec)
  · intro parse fetch utcToday today input ct th c k rec h
    rcases getJsonForDate_shape parse fetch utcToday today input ct th c with
      ⟨dtArg, ud, key, orig, heq⟩ | ⟨hw, hno⟩
    · rw [heq] at h
      exact (getJsonCore_version fetch c ct th dtArg ud key orig).2 k rec h
    · rw [hw] at h
      cases h
  · intro fetch ct th todayOrd shuffled count recs h rec hrec
    rw [getJsonForRandomDates] at h
    by_cases hcond : (decide ((100 : Int) < count) || decide (count ≤ 0)) = true
    · rw [if_pos hcond] at h
      cases h
    · rw [if_neg hcond] at h
      cases h
      rcases randomLoop_version fetch ct th todayOrd count shuffled [] rec hrec
        with h2 | h2
      · cases h2
      · exact h2
  · intro fetch ct th todayOrd startOrd endOrd recs h rec hrec
    rw [getJsonForDateRange] at h
    by_cases hb1 : (!dateInBounds todayOrd startOrd) = true
    · rw [if_pos hb1] at h
      cases h
    · rw [if_neg hb1] at h
      by_cases hb2 : (!dateInBounds todayOrd endOrd) = true
      · rw [if_pos hb2] at h
        cases h
      · rw [if_neg hb2] at h
        by_cases hlt : decide (endOrd < startOrd) = true
        · rw [if_pos hlt] at h
          cases h
        · rw [if_neg hlt] at h
          cases h
          exact rangeLoop_version fetch ct th todayOrd
            (List.range' startOrd (endOrd + 1 - startOrd)) rec hrec

/-- Witness for C9: one concrete run of each of the three shapes, each
yielding a record stamped "v1". -/
theorem c9_service_version_witness :
    (withVersion ⟨⟨1995, 6, 17⟩, "t", "e", ""⟩).service_version = "v1" ∧
    (⟨epochOrdinal, "t", "e", "v1"⟩ : ApodRecordO).service_version = "v1" ∧
    (⟨epochOrdinal, "t2", "e2", "v1"⟩ : ApodRecordO).service_version = "v1" := by
  refine ⟨?_, ?_, ?_⟩
  · exact c9_service_version.1
      (fun s => if s = "1995-06-17" then some ⟨1995, 6, 17⟩ else none)
      (fun _ _ _ _ => FetchResult.record ⟨⟨1995, 6, 17⟩, "t", "e", ""⟩)
      ⟨1995, 6, 17⟩ ⟨1995, 6, 18⟩ (some "1995-06-17") true false []
      (withVersion ⟨⟨1995, 6, 17⟩, "t", "e", ""⟩) (by decide)
  · exact c9_service_version.2.2.1
      (fun o _ _ _ => FetchResultO.record ⟨o, "t", "e", ""⟩)
      false false epochOrdinal [epochOrdinal] 1
      [⟨epochOrdinal, "t", "e", "v1"⟩] rfl
      ⟨epochOrdinal, "t", "e", "v1"⟩ (List.mem_singleton.mpr rfl)
  · exact c9_service_version.2.2.2
      (fun o _ _ _ => FetchResultO.record ⟨o, "t2", "e2", ""⟩)
      false false epochOrdinal epochOrdinal epochOrdinal
      [⟨epochOrdinal, "t2", "e2", "v1"⟩] rfl
      ⟨epochOrdinal, "t2", "e2", "v1"⟩ (List.mem_singleton.mpr rfl)

/-!
Part C: the translation gateway translate_to_zh (source lines 370-388),
with its two providers translate_with_libretranslate and
translate_with_google as parameters.
-/

/-- Result of one provider call: a returned value (possibly None or
empty), or one of the two exception classes the gateway catches —
requests.RequestException (network or HTTP fault) and ValueError
(malformed JSON response). -/
inductive PyCall (α : Type) where
  | ok (val : α)
  | exnRequest
  | exnValue
deriving DecidableEq, Repr

/-- Python truthiness of a str-or-None value: None and the empty string
are falsy. -/
def truthyStr : Option String → Bool
  | none => false
  | some s => !(s == "")

/-- A provider call counts as failed when it raised or returned a falsy
(missing or empty) translation. -/
def failedCall (res : PyCall (Option String)) : Bool :=
  match res with
  | PyCall.ok v => !truthyStr v
  | PyCall.exnRequest => true
  | PyCall.exnValue => true

/-- TRANSLATE_CACHE (source line 62): a mapping from source text to
translated text. -/
abbrev TransCache := List (String × String)

/-- Dictionary membership-and-read of TRANSLATE_CACHE. -/
def transGet (c : TransCache) (k : String) : Option String :=
  (c.find? (fun p => p.1 == k)).map (fun p => p.2)

/-- Dictionary assignment TRANSLATE_CACHE[text] = translated. -/
def transPut (c : TransCache) (k v : String) : TransCache :=
  (k, v) :: c.filter (fun p => p.1 != k)

/-- Embedding of translate_to_zh (source lines 370-388). Empty text or
translation disabled pass the text through; a cache hit returns the
cached value; otherwise the primary provider is called inside the try
block, the secondary is called only when the primary returned a falsy
value without raising, a truthy translation is cached and returned, and
every other path — either provider raising, or both results falsy —
returns the original text with the cache unchanged. -/
def translateToZh (primary secondary : String → PyCall (Option String))
    (enabled : Bool) (cache : TransCache) (text : String) :
    String × TransCache :=
  if text == "" || !enabled then (text, cache)
  else
    match transGet cache text with
    | some t => (t, cache)
    | none =>
      match primary text with
      | PyCall.exnRequest => (text, cache)
      | PyCall.exnValue => (text, cache)
      | PyCall.ok t1 =>
        match (if truthyStr t1 then PyCall.ok t1 else secondary text) with
        | PyCall.exnRequest => (text, cache)
        | PyCall.exnValue => (text, cache)
        | PyCall.ok t2 =>
          match t2 with
          | some s =>
            if s == "" then (text, cache)
            else (s, transPut cache text s)
          | none => (text, cache)

/-- Reading a key just written into TRANSLATE_CACHE returns the written
translation. -/
theorem transGet_transPut_self (c : TransCache) (k v : String) :
    transGet (transPut c k v) k = some v := by
  simp [transGet, transPut, List.find?]

/-- C7 counterexample. The claim says a primary-provider network fault
is followed by an attempt of the secondary provider, whose successful
translation is cached and returned: with the primary raising the
request exception and the secondary answering the non-empty
translation, the call returns the original text with the cache left
empty — the secondary result is neither returned nor cached, because
the exception skips the whole remainder of the try block. -/
theorem c7_counterexample :
    translateToZh (fun _ => PyCall.exnRequest)
        (fun _ => PyCall.ok (some "你好")) true [] "hello"
      = ("hello", ([] : TransCache)) ∧
    ("hello", ([] : TransCache))
      ≠ ("你好", transPut [] "hello" "你好") := by
  exact ⟨rfl, by decide⟩

/-- C7 as amended. The fallback chain reaches the secondary provider
only when the primary returns an empty or missing result without
raising: in that case a non-empty secondary translation is cached and
returned, and a subsequent identical call returns it from cache
regardless of either provider; when the primary raises (network fault
or malformed response), the secondary is not attempted and the original
text is returned with the cache unchanged. -/
theorem c7_fallback_on_empty_primary
    (primary secondary : String → PyCall (Option String))
    (cache : TransCache) (text : String) (t1 : Option String) (s : String)
    (htext : text ≠ "") (hmiss : transGet cache text = none)
    (hprim : primary text = PyCall.ok t1) (hfalsy : truthyStr t1 = false)
    (hsec : secondary text = PyCall.ok (some s)) (hs : s ≠ "") :
    translateToZh primary secondary true cache text
        = (s, transPut cache text s) ∧
    (∀ primary2 secondary2,
      translateToZh primary2 secondary2 true (transPut cache text s) text
        = (s, transPut cache text s)) ∧
    (∀ primary3,
      (primary3 text = PyCall.exnRequest ∨ primary3 text = PyCall.exnValue) →
      translateToZh primary3 secondary true cache text = (text, cache)) := by
  have htextb : (text == "") = false := by
    simp [htext]
  refine ⟨?_, ?_, ?_⟩
  · simp [translateToZh, htextb, hmiss, hprim, hfalsy, hsec, hs]
  · intro primary2 secondary2
    simp [translateToZh, htextb, transGet_transPut_self cache text s]
  · intro primary3 hexn
    rcases hexn with h | h <;> simp [translateToZh, htextb, hmiss, h]

/-- Witness for C7 as amended: the primary returns None, the secondary
returns the non-empty translation; it is cached and a second call is
served from cache even with providers that raise. -/
theorem c7_fallback_on_empty_primary_witness :
    ("hello" ≠ "" ∧ transGet [] "hello" = none ∧ ("你好" : String) ≠ "") ∧
    (translateToZh (fun _ => PyCall.ok none) (fun _ => PyCall.ok (some "你好"))
        true [] "hello" = ("你好", transPut [] "hello" "你好") ∧
     (∀ primary2 secondary2,
       translateToZh primary2 secondary2 true (transPut [] "hello" "你好") "hello"
         = ("你好", transPut [] "hello" "你好")) ∧
     (∀ primary3,
       (primary3 "hello" = PyCall.exnRequest ∨ primary3 "hello" = PyCall.exnValue) →
       translateToZh primary3 (fun _ => PyCall.ok (some "你好")) true [] "hello"
         = ("hello", []))) := by
  refine ⟨⟨by decide, by decide, by decide⟩, ?_⟩
  exact c7_fallback_on_empty_primary
    (fun _ => PyCall.ok none) (fun _ => PyCall.ok (some "你好"))
    [] "hello" none "你好"
    (by decide) (by decide) rfl (by decide) rfl (by decide)

/-- C8. Translation degradation and success-only memoization: when both
provider calls fail (raise, or return a missing or empty translation),
the gateway returns the original text without error and creates no
cache entry; and on every call the cache either stays unchanged or
gains exactly the returned non-empty successful translation. -/
theorem c8_translate_degradation
    (primary secondary : String → PyCall (Option String))
    (enabled : Bool) (cache : TransCache) (text : String) :
    (transGet cache text = none →
      failedCall (primary text) = true →
      failedCall (secondary text) = true →
      translateToZh primary secondary enabled cache text = (text, cache)) ∧
    ((translateToZh primary secondary enabled cache text).2 = cache ∨
      ∃ tr, tr ≠ "" ∧
        translateToZh primary secondary enabled cache text
          = (tr, transPut cache text tr)) := by
  constructor
  · intro hmiss hp hsf
    by_cases hpass : (text == "" || !enabled) = true
    · simp [translateToZh, hpass]
    · rcases hpc : primary text with t1 | _ | _
      · rw [hpc] at hp
        have hfalsy : truthyStr t1 = false := by
          simpa [failedCall] using hp
        rcases hsc : secondary text with t2 | _ | _
        · rw [hsc] at hsf
          have hfalsy2 : truthyStr t2 = false := by
            simpa [failedCall] using hsf
          match t2, hfalsy2 with
          | none, _ => simp [translateToZh, hpass, hmiss, hpc, hfalsy, hsc]
          | some s, h2 =>
            have hse : (s == "") = true := by
              simpa [truthyStr] using h2
            simp [translateToZh, hpass, hmiss, hpc, hfalsy, hsc, hse]
        · simp [translateToZh, hpass, hmiss, hpc, hfalsy, hsc]
        · simp [translateToZh, hpass, hmiss, hpc, hfalsy, hsc]
      · simp [translateToZh, hpass, hmiss, hpc]
      · simp [translateToZh, hpass, hmiss, hpc]
  · by_cases hpass : (text == "" || !enabled) = true
    · left
      simp [translateToZh, hpass]
    · rcases hm : transGet cache text with _ | t
      · rcases hpc : primary text with t1 | _ | _
        · by_cases htr : truthyStr t1 = true
          · match t1, htr with
            | some s, htr =>
              have hse : (s == "") = false := by
                simpa [truthyStr] using htr
              right
              refine ⟨s, by simpa using hse, ?_⟩
              simp [translateToZh, hpass, hm, hpc, truthyStr, hse]
          · have hfalsy : truthyStr t1 = false := by
              simpa using htr
            rcases hsc : secondary text with t2 | _ | _
            · match t2 with
              | none => left; simp [translateToZh, hpass, hm, hpc, hfalsy, hsc]
              | some s =>
                by_cases hse : (s == "") = true
                · left
                  simp [translateToZh, hpass, hm, hpc, hfalsy, hsc, hse]
                · right
                  refine ⟨s, by simpa using hse, ?_⟩
                  simp [translateToZh, hpass, hm, hpc, hfalsy, hsc,
                    Bool.of_not_eq_true hse]
            · left; simp [translateToZh, hpass, hm, hpc, hfalsy, hsc]
            · left; simp [translateToZh, hpass, hm, hpc, hfalsy, hsc]
        · left; simp [translateToZh, hpass, hm, hpc]
        · left; simp [translateToZh, hpass, hm, hpc]
      · left
        simp [translateToZh, hpass, hm]

/-- Witness for C8: both providers raising on "hello" with an empty
cache; the call returns "hello" and the cache stays empty, exercising
both the degradation conjunct and the unchanged-cache side of the
memoization conjunct. -/
theorem c8_translate_degradation_witness :
    (transGet [] "hello" = none ∧
     failedCall ((fun _ => (PyCall.exnRequest : PyCall (Option String))) "hello") = true ∧
     failedCall ((fun _ => (PyCall.exnValue : PyCall (Option String))) "hello") = true) ∧
    (translateToZh (fun _ => PyCall.exnRequest) (fun _ => PyCall.exnValue)
        true [] "hello" = ("hello", []) ∧
     ((translateToZh (fun _ => PyCall.exnRequest) (fun _ => PyCall.exnValue)
        true [] "hello").2 = [] ∨
      ∃ tr, tr ≠ "" ∧
        translateToZh (fun _ => PyCall.exnRequest) (fun _ => PyCall.exnValue)
          true [] "hello" = (tr, transPut [] "hello" tr))) := by
  refine ⟨⟨by decide, by decide, by decide⟩, ?_, ?_⟩
  · exact (c8_translate_degradation (fun _ => PyCall.exnRequest)
      (fun _ => PyCall.exnValue) true [] "hello").1 (by decide) (by decide) (by decide)
  · exact (c8_translate_degradation (fun _ => PyCall.exnRequest)
      (fun _ => PyCall.exnValue) true [] "hello").2
